import Mathlib

/-!
Verification development for the quiz-bot engine (`src/index.js`).

The JavaScript source is shallowly embedded: strings are Lean `String`
(a structure over `List Char`), JS arrays are `List`, JS `Map` is an
insertion-ordered association list, machine numbers are `Int`/`Nat`.
All string primitives used by the source (`trim`, `toUpperCase`,
`toLowerCase`, `split`, `replace`, `includes`) are re-implemented by
structural recursion on character lists so that every definition is
executable and kernel-reducible.
-/

/- ===================== character/string utilities ===================== -/

/-- ASCII uppercase of one character (models `String.prototype.toUpperCase`
on the ASCII inputs used by the source). -/
def upChar (c : Char) : Char :=
  if 97 ≤ c.toNat ∧ c.toNat ≤ 122 then Char.ofNat (c.toNat - 32) else c

/-- ASCII lowercase of one character (models `String.prototype.toLowerCase`). -/
def lowChar (c : Char) : Char :=
  if 65 ≤ c.toNat ∧ c.toNat ≤ 90 then Char.ofNat (c.toNat + 32) else c

def toUpperStr (s : String) : String := String.mk (s.data.map upChar)

def toLowerStr (s : String) : String := String.mk (s.data.map lowChar)

/-- Whitespace test used for `trim` / `\s` (core `Char.isWhitespace`). -/
def wsChar (c : Char) : Bool := c.isWhitespace

def trimChars (l : List Char) : List Char :=
  ((l.dropWhile wsChar).reverse.dropWhile wsChar).reverse

/-- Models `String.prototype.trim` (also used for `normalize`). -/
def jsTrim (s : String) : String := String.mk (trimChars s.data)

/-- Replace every occurrence of one character by another
(models `str.replace(/x/g, 'y')`). -/
def replChar (a b : Char) (l : List Char) : List Char :=
  l.map (fun c => if c == a then b else c)

/-- Split a character list at every occurrence of a single separator
character; models `str.split(sep)` for a one-character separator. -/
def splitOnChar (sep : Char) : List Char → List Char → List (List Char)
  | [], cur => [cur.reverse]
  | c :: rest, cur =>
      if c == sep then cur.reverse :: splitOnChar sep rest []
      else splitOnChar sep rest (c :: cur)

def splitOnCharStr (sep : Char) (s : String) : List String :=
  (splitOnChar sep s.data []).map String.mk

/-- Split at every occurrence of the three-character separator `" ; "`;
models `str.split(' ; ')`. -/
def splitSemiSpaced : List Char → List Char → List (List Char)
  | [], cur => [cur.reverse]
  | ' ' :: ';' :: ' ' :: rest, cur => cur.reverse :: splitSemiSpaced rest []
  | c :: rest, cur => splitSemiSpaced rest (c :: cur)

def splitSemiSpacedStr (s : String) : List String :=
  (splitSemiSpaced s.data []).map String.mk

/-- Does `pat` occur as a leading block of `l`? -/
def startsWithChars : List Char → List Char → Bool
  | [], _ => true
  | _ :: _, [] => false
  | p :: ps, c :: cs => p == c && startsWithChars ps cs

/-- Does `pat` occur anywhere inside `l`? Models `str.includes(pat)`. -/
def containsSub (pat : List Char) : List Char → Bool
  | [] => startsWithChars pat []
  | c :: rest => startsWithChars pat (c :: rest) || containsSub pat rest

/-- Models `str.includes(c)` for a one-character needle. -/
def jsIncludesChar (c : Char) (s : String) : Bool := s.data.any (· == c)

/-- Models `str.includes(" ; ")`. -/
def includesSemiSpaced (s : String) : Bool := containsSub [' ', ';', ' '] s.data

/-- Value of a decimal digit string, as `parseInt(s, 10)` computes it on
an all-digit input. -/
def digitsToNat (l : List Char) : Nat :=
  l.foldl (fun a c => a * 10 + (c.toNat - 48)) 0

def isAsciiUpper (c : Char) : Bool := 65 ≤ c.toNat && c.toNat ≤ 90

def isAsciiLetter (c : Char) : Bool :=
  (65 ≤ c.toNat && c.toNat ≤ 90) || (97 ≤ c.toNat && c.toNat ≤ 122)

def isDigitChar (c : Char) : Bool := 48 ≤ c.toNat && c.toNat ≤ 57

def joinSep (sep : String) : List String → String
  | [] => ""
  | [x] => x
  | x :: y :: rest => x ++ sep ++ joinSep sep (y :: rest)

/- quick sanity checks that the string model evaluates -/
example : "ab".data = ['a', 'b'] := rfl
example : toUpperStr "a;C" = "A;C" := rfl
example : jsTrim "  x y " = "x y" := rfl
example : splitOnCharStr ';' "a;;b" = ["a", "", "b"] := rfl
example : splitSemiSpacedStr "a ; b" = ["a", "b"] := rfl
example : containsSub [' ', ';', ' '] "a ; b".data = true := rfl
example : digitsToNat "13".data = 13 := rfl

/- ===================== answer decoding (src lines 141-146, 231-239) ===================== -/

/-- One token of the answer cell after uppercasing/trimming: a single
`A`-`Z` letter maps to its 0-based alphabet index, a pure digit string to
(value - 1), anything else to `NaN` (modelled `none`).  From
`lettersToIdxArray`'s map step. -/
def decodeToken (t : List Char) : Option Int :=
  match t with
  | [c] =>
      if isAsciiUpper c then some ((c.toNat : Int) - 65)
      else if isDigitChar c then some ((digitsToNat [c] : Int) - 1)
      else none
  | _ =>
      if t ≠ [] ∧ t.all isDigitChar then some ((digitsToNat t : Int) - 1)
      else none

/-- Embeds `lettersToIdxArray` (src lines 141-146): uppercase, replace `,`
by `;`, split on `;`, trim tokens, drop empties, decode each token, keep
integers `≥ 0`. -/
def lettersToIdxArray (ans : String) : List Int :=
  ((((splitOnChar ';' (replChar ',' ';' (toUpperStr ans).data) []).map
      trimChars).filter (· ≠ [])).filterMap decodeToken).filter (0 ≤ ·)

/-- Embeds the text-matching fallback (src lines 234-239): split the raw
answer cell on `;`, `,` or `|`, lowercase + trim, drop empties, and for
each token push the index of the first option whose lowercased text equals
the token. -/
def textFallback (ansRaw : String) (options : List String) : List Int :=
  ((((splitOnChar ';' (replChar '|' ';' (replChar ',' ';' ansRaw.data)) []).map
      (fun t => toLowerStr (jsTrim (String.mk t)))).filter (· ≠ "")).filterMap
    (fun txt =>
      match options.findIdx? (fun o => toLowerStr o == txt) with
      | some ix => some ((ix : Nat) : Int)
      | none => none))

/-- Embeds the answer derivation of `parseCsvSmart` (src lines 231-239):
letter/number decoding filtered to in-range indices, with the text
fallback used only when that yields nothing and the cell is non-empty. -/
def decodeAnswer (ansRaw : String) (options : List String) : List Int :=
  let a := (lettersToIdxArray ansRaw).filter (· < (options.length : Int))
  if a = [] ∧ ansRaw ≠ "" then textFallback ansRaw options else a

example : lettersToIdxArray "A;C" = [0, 2] := rfl
example : lettersToIdxArray "1;3" = [0, 2] := rfl
example : lettersToIdxArray "Yes;Maybe" = [] := rfl
example : lettersToIdxArray "a, c" = [0, 2] := rfl
example : lettersToIdxArray "0" = [] := rfl
example : decodeAnswer "Yes;Maybe" ["Yes", "No", "Maybe"] = [0, 2] := rfl

/- ===================== question model and validator (src lines 148-156) ===================== -/

/-- A question row as the source builds it (`{ q, type, options, answerIdx,
rationale }`). -/
structure Question where
  q : String
  type : String
  options : List String
  answerIdx : List Int
  rationale : String
deriving DecidableEq, Repr

/-- Embeds `validateQuestion` (src lines 148-156), pushing issue strings in
source order. -/
def validateQuestion (qu : Question) : List String :=
  (if qu.q = "" then ["missing prompt"] else []) ++
  (if qu.options.length < 2 then ["needs ≥2 options"] else []) ++
  (if qu.options.length > 25 then ["≤25 options supported"] else []) ++
  (if qu.answerIdx = [] then ["missing answer(s)"] else []) ++
  (if qu.answerIdx.any (fun i => i < 0 || (qu.options.length : Int) ≤ i)
    then ["answer index out of range"] else [])

example :
    validateQuestion ⟨"", "single", [], [], ""⟩ =
      ["missing prompt", "needs ≥2 options", "missing answer(s)"] := rfl
example : validateQuestion ⟨"P", "single", ["A", "B"], [0], ""⟩ = [] := rfl

/- ===================== packed-options splitting (src lines 216-227) ===================== -/

/-- Embeds the packed-options splitting of `parseCsvSmart` (src lines
217-222): split on `|` if present, else `" ; "` if present, else `;` if
present, else the whole cell is one option. -/
def splitPackedOptions (s : String) : List String :=
  if jsIncludesChar '|' s then splitOnCharStr '|' s
  else if includesSemiSpaced s then splitSemiSpacedStr s
  else if jsIncludesChar ';' s then splitOnCharStr ';' s
  else [s]

/-- Models `s.replace(/^[A-Z]\.\s*/i, '')` (src line 227): strip one
leading "letter dot whitespace*" block. -/
def stripLeadingLetterDot (l : List Char) : List Char :=
  match l with
  | c :: '.' :: rest => if isAsciiLetter c then rest.dropWhile wsChar else l
  | _ => l

/-- Embeds the option clean-up of src line 227: strip a leading letter
prefix, trim, drop empties. -/
def cleanOptions (options : List String) : List String :=
  (options.map (fun s => jsTrim (String.mk (stripLeadingLetterDot s.data)))).filter
    (· ≠ "")

example : splitPackedOptions "A|B;C" = ["A", "B;C"] := rfl
example : splitPackedOptions "A;B" = ["A", "B"] := rfl
example : splitPackedOptions "x ; y" = ["x", "y"] := rfl
example : splitPackedOptions "plain" = ["plain"] := rfl
example : cleanOptions ["A. Yes", " B. No "] = ["Yes", "B. No"] := rfl

/- ===================== CSV parser (src lines 176-248) ===================== -/

/-- Quote-aware cell splitter, embedding `parseCsvRow` (src lines 176-184):
a `"` toggles quoted mode, `""` inside quoted mode is a literal quote, `,`
outside quoted mode separates cells.  `cur` is the current cell reversed,
`out` the finished cells. -/
def csvGo : List Char → Bool → List Char → List (List Char) → List (List Char)
  | [], _, cur, out => out ++ [cur.reverse]
  | '"' :: '"' :: rest, true, cur, out => csvGo rest true ('"' :: cur) out
  | '"' :: rest, inQ, cur, out => csvGo rest (!inQ) cur out
  | ',' :: rest, false, cur, out => csvGo rest false [] (out ++ [cur.reverse])
  | c :: rest, inQ, cur, out => csvGo rest inQ (c :: cur) out

def parseCsvRowChars (line : List Char) : List (List Char) := csvGo line false [] []

/-- Embeds `parseCsvRow` at the string level. -/
def parseCsvRow (line : String) : List String :=
  (parseCsvRowChars line.data).map String.mk

example : parseCsvRow "a,\"b,c\",\"x\"\"y\"" = ["a", "b,c", "x\"y"] := rfl

/-- Drop one trailing carriage return (the list arrives reversed, so it is
leading here); part of splitting on the regex `\r?\n`. -/
def dropRevCR (l : List Char) : List Char :=
  match l with
  | '\r' :: t => t
  | _ => l

/-- Split text into lines at `\r?\n`, embedding
`text.split(/\r?\n/)` (src line 187). -/
def splitCRLF : List Char → List Char → List (List Char)
  | [], cur => [cur.reverse]
  | '\n' :: rest, cur => (dropRevCR cur).reverse :: splitCRLF rest []
  | c :: rest, cur => splitCRLF rest (c :: cur)

/-- Strip one leading byte-order marker U+FEFF, embedding the
`text.replace` prefix step of src line 187. -/
def stripBOM (l : List Char) : List Char :=
  match l with
  | '\uFEFF' :: t => t
  | _ => l

/-- The non-blank lines of the CSV text (src line 187). -/
def csvLines (text : String) : List (List Char) :=
  (splitCRLF (stripBOM text.data) []).filter (fun l => trimChars l ≠ [])

/-- Lower-cased trimmed headers of a header line (src line 190). -/
def headerCells (headerLine : List Char) : List String :=
  (parseCsvRowChars headerLine).map (fun h => toLowerStr (String.mk (trimChars h)))

/-- The index the source's `headers.forEach` assignment leaves for a role:
the last header contained in `names` (later assignments overwrite earlier
ones). -/
def lastMatchIdx (names : List String) (headers : List String) : Option Nat :=
  headers.enum.foldl
    (fun acc p => if names.contains p.2 then some p.1 else acc) none

/-- The column index recorded in `map.optCols` for a single-letter header
(src line 199), again last occurrence wins. -/
def optColIdx (letter : Char) (headers : List String) : Option Nat :=
  headers.enum.foldl
    (fun acc p => if p.2 == String.mk [letter] then some p.1 else acc) none

def questionNames : List String := ["question", "prompt", "stem"]
def typeNames : List String := ["type", "qtype"]
def optionsNames : List String := ["options", "choices", "opts"]
def answerNames : List String := ["answer", "answers", "key", "correct"]
def explanationNames : List String := ["explanation", "rationale", "why"]

def letterOrder : List Char :=
  ['a', 'b', 'c', 'd', 'e', 'f', 'g', 'h', 'i', 'j', 'k', 'l', 'm',
   'n', 'o', 'p', 'q', 'r', 's', 't', 'u', 'v', 'w', 'x', 'y', 'z']

/-- The letter columns present, in alphabetical order, capped at 25
(src lines 207-208). -/
def optLetterCols (headers : List String) : List Char :=
  (letterOrder.filter (fun l => (optColIdx l headers).isSome)).take 25

/-- `hasAnyOptions` (src line 202): a packed options column or at least one
letter column. -/
def hasAnyOptions (headers : List String) : Bool :=
  (lastMatchIdx optionsNames headers).isSome || !(optLetterCols headers).isEmpty

/-- The header check of src line 203: prompt role, options source and
answer role must all be present. -/
def headerRolesOk (headers : List String) : Bool :=
  (lastMatchIdx questionNames headers).isSome && hasAnyOptions headers &&
    (lastMatchIdx answerNames headers).isSome

/-- The error text thrown at src line 204; it names the detected headers. -/
def headerErrorMsg (headers : List String) : String :=
  "Headers must include at least: question, options (or a|b|c...), answer. Detected: " ++
    joinSep " | " headers

/-- `cells[i]` under JS semantics: a missing column or out-of-range index
reads `undefined`, which `normalize` turns into the empty string. -/
def cellAt (cells : List String) : Option Nat → String
  | none => ""
  | some i => cells.getD i ""

/-- Builds one question row from one data line (src lines 211-244) and
keeps it only if `validateQuestion` returns no issues. -/
def parseRow (headers : List String) (raw : List Char) : Option Question :=
  let cells := (parseCsvRowChars raw).map (fun s => jsTrim (String.mk s))
  let qp := cellAt cells (lastMatchIdx questionNames headers)
  let tRaw := cellAt cells (lastMatchIdx typeNames headers)
  let t := toLowerStr (jsTrim (if tRaw = "" then "single" else tRaw))
  let options0 :=
    match lastMatchIdx optionsNames headers with
    | some oi => splitPackedOptions (jsTrim (cellAt cells (some oi)))
    | none =>
        ((optLetterCols headers).map
          (fun l => cellAt cells (optColIdx l headers))).filter (· ≠ "")
  let options1 := cleanOptions options0
  let options2 :=
    if (t = "tf" ∨ t = "truefalse") ∧ options1 = [] then ["True", "False"]
    else options1
  let options := if options2.length > 25 then options2.take 25 else options2
  let ansRaw := cellAt cells (lastMatchIdx answerNames headers)
  let answerIdx := decodeAnswer ansRaw options
  let rationale :=
    match lastMatchIdx explanationNames headers with
    | some ei => cellAt cells (some ei)
    | none => ""
  let row : Question := ⟨qp, t, options, answerIdx, rationale⟩
  if validateQuestion row = [] then some row else none

structure ParseMeta where
  rows : Nat
  headers : List String
deriving DecidableEq, Repr

structure ParseResult where
  items : List Question
  meta : ParseMeta
deriving DecidableEq, Repr

/-- Embeds `parseCsvSmart` (src lines 186-248).  A thrown JS error is
modelled as `Except.error` carrying the error message. -/
def parseCsvSmart (text : String) : Except String ParseResult :=
  match csvLines text with
  | [] => .ok ⟨[], ⟨0, []⟩⟩
  | headerLine :: dataLines =>
      let headers := headerCells headerLine
      if headerRolesOk headers then
        .ok ⟨dataLines.filterMap (parseRow headers), ⟨dataLines.length, headers⟩⟩
      else
        .error (headerErrorMsg headers)

/-- The headers `parseCsvSmart` detects for a text (empty when there are no
non-blank lines). -/
def csvHeaders (text : String) : List String :=
  match csvLines text with
  | [] => []
  | headerLine :: _ => headerCells headerLine

/-- The import flow around the parser (src lines 374-391): on a parse
error, and on zero surviving rows, the bank map is left untouched;
otherwise the parsed items are stored under the bank name.  The `Bool`
reports success. -/
def importCsv (bankMap : List (String × List Question)) (name : String)
    (text : String) : List (String × List Question) × Bool :=
  match parseCsvSmart text with
  | .error _ => (bankMap, false)
  | .ok res =>
      if res.items.length = 0 then (bankMap, false)
      else
        ((if bankMap.any (fun p => p.1 == name) then
            bankMap.map (fun p => if p.1 == name then (name, res.items) else p)
          else bankMap ++ [(name, res.items)]), true)

/- ===================== insertion-ordered maps (JS Map) ===================== -/

/-- `Map.prototype.set`: overwrite in place when the key exists, otherwise
append (JS maps iterate in insertion order). -/
def amSet {α : Type} : List (String × α) → String → α → List (String × α)
  | [], k, v => [(k, v)]
  | p :: rest, k, v =>
      if p.1 == k then (k, v) :: rest else p :: amSet rest k v

/-- `Map.prototype.get` (`undefined` modelled as `none`). -/
def amGet? {α : Type} (m : List (String × α)) (k : String) : Option α :=
  (m.find? (fun p => p.1 == k)).map (·.2)

/-- `Map.prototype.delete`. -/
def amDelete {α : Type} (m : List (String × α)) (k : String) : List (String × α) :=
  m.filter (fun p => p.1 != k)

/-- `scoreboard.get(id) || 0` (src line 278). -/
def scoreGet (m : List (String × Nat)) (k : String) : Nat :=
  (amGet? m k).getD 0

/- ===================== quiz session (src lines 34, 250-305, 436-452) ===================== -/

/-- The per-channel session object
`{ index, bank, active, answered, scoreboard, collector }` (src line 444).
The collector handle is represented by the `active`/`answered` flags the
handlers consult. -/
structure Session where
  index : Nat
  bank : List Question
  active : Bool
  answered : Bool
  scoreboard : List (String × Nat)
deriving DecidableEq, Repr

def defaultQuestion : Question := ⟨"", "single", [], [], ""⟩

/-- Outcome the collect handler reports to the pressing user. -/
inductive CollectOutcome where
  | alreadyAdvanced
  | answered (isCorrect : Bool)
deriving DecidableEq, Repr

/-- Embeds the `collector.on('collect')` handler (src lines 269-296): a
second response for an already-answered question is told the question
already advanced and changes nothing; the first response marks the
question answered and scores a point iff the chosen index is in the
question's correct set. -/
def handleCollect (s : Session) (userId : String) (choice : Int) :
    Session × CollectOutcome :=
  if s.answered then (s, .alreadyAdvanced)
  else
    let qu := s.bank.getD s.index defaultQuestion
    let isCorrect := qu.answerIdx.contains choice
    let sb :=
      if isCorrect then amSet s.scoreboard userId (scoreGet s.scoreboard userId + 1)
      else s.scoreboard
    ({ s with answered := true, scoreboard := sb }, .answered isCorrect)

/-- Responses of one collection window processed in arrival order (the
event queue serialises handler runs). -/
def processResponses (s : Session) : List (String × Int) → Session × List CollectOutcome
  | [] => (s, [])
  | (u, c) :: rs =>
      let r1 := handleCollect s u c
      let r2 := processResponses r1.1 rs
      (r2.1, r1.2 :: r2.2)

/- ===================== stop (src lines 352-360) ===================== -/

inductive StopResult where
  | nothingRunning
  | stopped
deriving DecidableEq, Repr

/-- Result of a `/quiz stop`: the session store afterwards, what was
reported, and the reason passed to `collector.stop` if it was called. -/
structure StopOutcome where
  store : List (String × Session)
  result : StopResult
  collectorStopReason : Option String
deriving DecidableEq, Repr

/-- Embeds the `stop` subcommand (src lines 352-360): a missing or
inactive session reports "nothing running" and mutates nothing; otherwise
the collector is stopped with reason `manual-stop` and the session is
deleted. -/
def stopQuiz (store : List (String × Session)) (ch : String) : StopOutcome :=
  match amGet? store ch with
  | none => ⟨store, .nothingRunning, none⟩
  | some s =>
      if s.active then ⟨amDelete store ch, .stopped, some "manual-stop"⟩
      else ⟨store, .nothingRunning, none⟩

/- ===================== start (src lines 436-452) ===================== -/

/-- The count selected at src line 441:
`desiredCount ? Math.max(1, Math.min(desiredCount, shuffled.length)) :
shuffled.length`.  `none` models a missing `count` option (`?? null`), and
`some 0` is falsy in JS exactly like `null`. -/
def startCount (desiredCount : Option Int) (len : Nat) : Int :=
  match desiredCount with
  | none => (len : Int)
  | some d => if d = 0 then (len : Int) else max 1 (min d (len : Int))

/-- `shuffled.slice(0, count)` applied to the already-shuffled bank
(src line 442). -/
def actuallyStartSelect (shuffled : List Question) (desiredCount : Option Int) :
    List Question :=
  shuffled.take (startCount desiredCount shuffled.length).toNat

/-- The session object created at src line 444: index 0, inactive, not
answered, empty scoreboard. -/
def initialSession (selected : List Question) : Session :=
  ⟨0, selected, false, false, []⟩

inductive StartResult where
  | emptyBank
  | alreadyRunning
  | started (count : Nat)
deriving DecidableEq, Repr

/-- Embeds `actuallyStart` (src lines 436-452) up to the first
`presentQuestion` call, with the shuffle result supplied explicitly: an
empty bank and an occupied channel are rejected without mutation,
otherwise the truncated shuffled snapshot is stored as a fresh inactive
session. -/
def actuallyStart (store : List (String × Session)) (ch : String)
    (shuffled : List Question) (desiredCount : Option Int) :
    List (String × Session) × StartResult :=
  if shuffled.isEmpty then (store, .emptyBank)
  else if (amGet? store ch).isSome then (store, .alreadyRunning)
  else
    let selected := actuallyStartSelect shuffled desiredCount
    (amSet store ch (initialSession selected), .started selected.length)

/- ===================== shuffle model (src line 440) ===================== -/

/-- Insertion step of a comparison sort whose comparator is
`() => Math.random() - 0.5` (src line 440): each comparison consumes one
fair boolean (`true` = the comparator returned a negative value, i.e.
"keep `x` in front"). -/
def comparatorInsert {α : Type} : List Bool → α → List α → List α × List Bool
  | flips, x, [] => ([x], flips)
  | [], x, y :: ys => (x :: y :: ys, [])
  | f :: flips, x, y :: ys =>
      if f then (x :: y :: ys, flips)
      else
        let r := comparatorInsert flips x ys
        (y :: r.1, r.2)

/-- A comparison sort driven by a stream of comparator outcomes, modelling
`[...bankArr].sort(() => Math.random() - 0.5)` (src line 440). -/
def comparatorSort {α : Type} : List Bool → List α → List α × List Bool
  | flips, [] => ([], flips)
  | flips, x :: xs =>
      let r := comparatorSort flips xs
      comparatorInsert r.2 x r.1

/-- The shuffled snapshot for a given sequence of comparator outcomes. -/
def mathRandomShuffle {α : Type} (flips : List Bool) (l : List α) : List α :=
  (comparatorSort flips l).1

/-- All comparator-outcome sequences of length `n`, each of probability
`2 ^ (-n)` under fair `Math.random()` signs. -/
def allFlips : Nat → List (List Bool)
  | 0 => [[]]
  | n + 1 => (allFlips n).map (false :: ·) ++ (allFlips n).map (true :: ·)

/-- How many of the `2 ^ k` outcome sequences put element `e` at position
`p` of the shuffle of `l`. -/
def posCountOf (g : List Bool → List Nat) (k e p : Nat) : Nat :=
  ((allFlips k).filter (fun fl => (g fl).getD p 99 == e)).length

/-- Position counts for the source's shuffle of the 3-element bank
`[0, 1, 2]`, using 3 comparator outcomes (the sort consumes at most 3). -/
def shufflePosCount (e p : Nat) : Nat :=
  posCountOf (fun fl => mathRandomShuffle fl [0, 1, 2]) 3 e p

/- ===================== scoreboard rendering (src lines 307-316) ===================== -/

/-- The comparator order of `sort((a, b) => b[1] - a[1])`: `a` may stay
before `b` iff `b`'s score is not larger.  JS `Array.prototype.sort` is
stable, so a stable insertion sort in this order is an exact model. -/
def scoreOrder (a b : String × Nat) : Prop := b.2 ≤ a.2

instance : DecidableRel scoreOrder := fun a b => Nat.decLe b.2 a.2

instance : IsTotal (String × Nat) scoreOrder := ⟨fun a b => Nat.le_total b.2 a.2⟩

instance : IsTrans (String × Nat) scoreOrder := ⟨fun _ _ _ h1 h2 => Nat.le_trans h2 h1⟩

/-- `[...scoreboard.entries()].sort((a, b) => b[1] - a[1])` (src line 309). -/
def sortScores (sb : List (String × Nat)) : List (String × Nat) :=
  List.insertionSort scoreOrder sb

/-- What `showScoreboard` renders (src lines 307-316): either the fixed
"no scores yet" message, or the 1-indexed ranked lines
`(rank, userId, pts)` (the display-name lookup is an external
collaborator). -/
inductive ScoreboardView where
  | noScores
  | ranked (lines : List (Nat × String × Nat))
deriving DecidableEq, Repr

/-- Embeds `showScoreboard` (src lines 307-316). -/
def showScoreboard (sb : List (String × Nat)) : ScoreboardView :=
  if sb.isEmpty then .noScores
  else .ranked ((sortScores sb).enum.map (fun p => (p.1 + 1, p.2.1, p.2.2)))

example :
    showScoreboard [("A", 3), ("B", 5), ("C", 5)] =
      .ranked [(1, "B", 5), (2, "C", 5), (3, "A", 3)] := rfl
example : showScoreboard [] = .noScores := rfl

/- ===================== sample bank (src lines 41-45) ===================== -/

/-- The built-in sample bank (src lines 41-45), used here as a concrete
non-empty bank for witnesses. -/
def SAMPLE_BANK : List Question :=
  [⟨"Which PPE items are required for contact precautions?", "sata",
    ["Gloves", "Gown", "N95 respirator", "Eye protection"], [0, 1],
    "Contact = gloves + gown. N95 is airborne; eye protection is procedure-dependent."⟩,
   ⟨"Priority action for suspected sepsis on med-surg?", "single",
    ["Start enteral feeds", "Obtain blood cultures", "Start DVT prophylaxis",
     "Give PRN lorazepam"], [1], "Cultures before antibiotics."⟩,
   ⟨"Diabetes sick-day rule: Continue basal insulin.", "tf",
    ["True", "False"], [0], "Prevents DKA."⟩]


/- ===================== helper lemmas ===================== -/

theorem amGet?_amSet_self {α : Type} (m : List (String × α)) (k : String) (v : α) :
    amGet? (amSet m k v) k = some v := by
  induction m with
  | nil => simp [amSet, amGet?, List.find?]
  | cons p rest ih =>
    by_cases h : p.1 = k
    · simp [amSet, amGet?, h, List.find?]
    · have hb : (p.1 == k) = false := by simp [h]
      simp only [amSet, hb, Bool.false_eq_true, if_false, amGet?, List.find?_cons, hb] at ih ⊢
      exact ih

theorem amGet?_amSet_ne {α : Type} (m : List (String × α)) (k k' : String) (v : α)
    (h : k' ≠ k) : amGet? (amSet m k v) k' = amGet? m k' := by
  have hkk : (k == k') = false := beq_eq_false_iff_ne.mpr (Ne.symm h)
  induction m with
  | nil => simp [amSet, amGet?, List.find?_cons, hkk]
  | cons p rest ih =>
    by_cases hp : p.1 = k
    · subst hp
      simp [amSet, amGet?, List.find?_cons, hkk]
    · have hb : (p.1 == k) = false := by simp [hp]
      by_cases hp' : p.1 = k'
      · have hb' : (p.1 == k') = true := by simp [hp']
        simp only [amSet, hb, Bool.false_eq_true, if_false]
        simp [amGet?, List.find?_cons, hb']
      · have hb' : (p.1 == k') = false := by simp [hp']
        simp only [amSet, hb, Bool.false_eq_true, if_false, amGet?, List.find?_cons, hb'] at ih ⊢
        exact ih

theorem amGet?_amDelete {α : Type} (m : List (String × α)) (k : String) :
    amGet? (amDelete m k) k = none := by
  have : List.find? (fun p => p.1 == k) (m.filter (fun p => p.1 != k)) = none := by
    rw [List.find?_eq_none]
    intro x hx
    have hx2 := (List.mem_filter.mp hx).2
    simp only [bne_iff_ne, ne_eq, decide_not] at hx2
    simp [hx2]
  simp [amGet?, amDelete, this]

theorem scoreGet_amSet_self (m : List (String × Nat)) (k : String) (v : Nat) :
    scoreGet (amSet m k v) k = v := by
  simp [scoreGet, amGet?_amSet_self]

theorem scoreGet_amSet_ne (m : List (String × Nat)) (k k' : String) (v : Nat)
    (h : k' ≠ k) : scoreGet (amSet m k v) k' = scoreGet m k' := by
  simp [scoreGet, amGet?_amSet_ne m k k' v h]

theorem findIdx?_bounds {α : Type} (p : α → Bool) (l : List α) :
    ∀ s i : Nat, List.findIdx? p l s = some i → s ≤ i ∧ i < s + l.length := by
  induction l with
  | nil => intro s i h; simp [List.findIdx?] at h
  | cons a t ih =>
    intro s i h
    rw [List.findIdx?_cons] at h
    by_cases hp : p a
    · simp only [hp, if_true, Option.some.injEq] at h
      simp only [List.length_cons]
      omega
    · simp only [hp, Bool.false_eq_true, if_false] at h
      have := ih (s + 1) i h
      simp only [List.length_cons]
      omega

theorem findIdx?_lt_length {α : Type} (p : α → Bool) (l : List α) (i : Nat)
    (h : l.findIdx? p = some i) : i < l.length := by
  have := findIdx?_bounds p l 0 i h
  omega

/- ===================== claim theorems ===================== -/

/-- Claim C7: every question whose options count is below 2 or above 25 gets
the corresponding issue string from `validateQuestion`; issues are pushed in
the source order (prompt, option count, answers non-empty, indices in
range), and a question with a non-empty prompt, 2-25 options and at least
one in-range correct index yields an empty issue list (is presentable). -/
theorem validateQuestion_correct (qu : Question) :
    (qu.options.length < 2 → "needs ≥2 options" ∈ validateQuestion qu) ∧
    (qu.options.length > 25 → "≤25 options supported" ∈ validateQuestion qu) ∧
    (validateQuestion ⟨"", "single", [], [], ""⟩ =
      ["missing prompt", "needs ≥2 options", "missing answer(s)"]) ∧
    (qu.q ≠ "" → 2 ≤ qu.options.length → qu.options.length ≤ 25 →
      qu.answerIdx ≠ [] →
      (∀ i ∈ qu.answerIdx, 0 ≤ i ∧ i < (qu.options.length : Int)) →
      validateQuestion qu = []) := by
  refine ⟨?_, ?_, rfl, ?_⟩
  · intro h
    simp [validateQuestion, h]
  · intro h
    simp [validateQuestion, h]
  · intro h1 h2 h3 h4 h5
    have hlt : ¬ qu.options.length < 2 := by omega
    have hgt : ¬ qu.options.length > 25 := by omega
    have hany : qu.answerIdx.any (fun i => i < 0 || (qu.options.length : Int) ≤ i) = false := by
      rw [List.any_eq_false]
      intro i hi
      have := h5 i hi
      simp only [Bool.or_eq_true, decide_eq_true_eq, not_or]
      push_neg
      omega
    simp [validateQuestion, h1, hlt, hgt, h4, hany]

theorem validateQuestion_correct_witness :
    "needs ≥2 options" ∈ validateQuestion ⟨"P", "single", ["only"], [0], ""⟩ ∧
    validateQuestion ⟨"P", "single", ["A", "B"], [0, 1], "r"⟩ = [] :=
  ⟨(validateQuestion_correct ⟨"P", "single", ["only"], [0], ""⟩).1 (by decide),
   (validateQuestion_correct ⟨"P", "single", ["A", "B"], [0, 1], "r"⟩).2.2.2
     (by decide) (by decide) (by decide) (by decide) (by decide)⟩

/-- Claim C8: a packed options cell splits on the bar character whenever one
is present (even if the cell also contains semicolons), else on
space-semicolon-space, else on semicolon, else it is one single option. -/
theorem splitPackedOptions_precedence (s : String) :
    (jsIncludesChar '|' s = true → splitPackedOptions s = splitOnCharStr '|' s) ∧
    (jsIncludesChar '|' s = false → includesSemiSpaced s = true →
      splitPackedOptions s = splitSemiSpacedStr s) ∧
    (jsIncludesChar '|' s = false → includesSemiSpaced s = false →
      jsIncludesChar ';' s = true → splitPackedOptions s = splitOnCharStr ';' s) ∧
    (jsIncludesChar '|' s = false → includesSemiSpaced s = false →
      jsIncludesChar ';' s = false → splitPackedOptions s = [s]) ∧
    splitPackedOptions "A|B;C" = ["A", "B;C"] ∧
    splitPackedOptions "A;B" = ["A", "B"] := by
  refine ⟨?_, ?_, ?_, ?_, rfl, rfl⟩
  · intro h; simp [splitPackedOptions, h]
  · intro h1 h2; simp [splitPackedOptions, h1, h2]
  · intro h1 h2 h3; simp [splitPackedOptions, h1, h2, h3]
  · intro h1 h2 h3; simp [splitPackedOptions, h1, h2, h3]

theorem splitPackedOptions_precedence_witness :
    splitPackedOptions "A|B;C" = splitOnCharStr '|' "A|B;C" ∧
    splitPackedOptions "A;B" = splitOnCharStr ';' "A;B" :=
  ⟨(splitPackedOptions_precedence "A|B;C").1 rfl,
   (splitPackedOptions_precedence "A;B").2.2.1 rfl rfl rfl⟩

/-- Claim C2 counterexample: with the three-question sample bank and
`desiredCount = 0`, the code selects all 3 questions, not the
`min(max(0, 1), 3) = 1` the claim asserts (`0` is falsy in
`desiredCount ? ... : shuffled.length`, so it is treated like an absent
count). -/
theorem start_count_zero_cex :
    (actuallyStartSelect SAMPLE_BANK (some 0)).length = 3 ∧
    Int.toNat (min (max (0 : Int) 1) (SAMPLE_BANK.length : Int)) = 1 ∧
    (actuallyStartSelect SAMPLE_BANK (some 0)).length ≠
      Int.toNat (min (max (0 : Int) 1) (SAMPLE_BANK.length : Int)) :=
  ⟨rfl, rfl, by decide⟩

/-- Claim C2 amended: for a non-empty shuffled snapshot, a given non-zero
`desiredCount` selects `min(max(desiredCount, 1), shuffledLength)`
questions (negative clamps to 1, too large clamps to the bank size), while
an absent or zero `desiredCount` selects the full shuffled length. -/
theorem start_count_clamp (shuffled : List Question) (d : Int)
    (hne : shuffled ≠ []) (hd : d ≠ 0) :
    ((actuallyStartSelect shuffled (some d)).length : Int)
        = min (max d 1) (shuffled.length : Int) ∧
    (actuallyStartSelect shuffled (some 0)).length = shuffled.length ∧
    (actuallyStartSelect shuffled none).length = shuffled.length := by
  have hlen : 1 ≤ shuffled.length := List.length_pos.mpr hne
  refine ⟨?_, ?_, ?_⟩
  · simp only [actuallyStartSelect, startCount, hd, if_false, List.length_take]
    simp only [min_def, max_def]
    split_ifs <;> omega
  · simp only [actuallyStartSelect, startCount, if_pos rfl, Int.toNat_ofNat,
      List.length_take]
    simp only [min_def]
    split_ifs <;> omega
  · simp only [actuallyStartSelect, startCount, List.length_take]
    simp only [min_def]
    split_ifs <;> omega

theorem start_count_clamp_witness :
    ((actuallyStartSelect SAMPLE_BANK (some 5)).length : Int)
      = min (max (5 : Int) 1) (SAMPLE_BANK.length : Int) :=
  (start_count_clamp SAMPLE_BANK 5 (by decide) (by decide)).1

/-- Claim C4: stopping with no session in the store reports nothing running
and mutates no state; a successful stop emits `collector.stop` with reason
manual-stop and deletes the session, after which a second stop behaves
exactly like stopping with no session (stopping twice equals stopping
once). -/
theorem stop_idempotent (store : List (String × Session)) (ch : String) :
    (amGet? store ch = none → stopQuiz store ch = ⟨store, .nothingRunning, none⟩) ∧
    ((stopQuiz store ch).result = .stopped →
      (stopQuiz store ch).collectorStopReason = some "manual-stop" ∧
      amGet? (stopQuiz store ch).store ch = none ∧
      stopQuiz (stopQuiz store ch).store ch =
        ⟨(stopQuiz store ch).store, .nothingRunning, none⟩) := by
  constructor
  · intro h
    simp [stopQuiz, h]
  · intro h
    cases hg : amGet? store ch with
    | none => simp [stopQuiz, hg] at h
    | some s =>
      by_cases ha : s.active
      · have hq : stopQuiz store ch = ⟨amDelete store ch, .stopped, some "manual-stop"⟩ := by
          simp [stopQuiz, hg, ha]
        rw [hq]
        exact ⟨rfl, amGet?_amDelete store ch, by simp [stopQuiz, amGet?_amDelete]⟩
      · simp [stopQuiz, hg, ha] at h

theorem stop_idempotent_witness :
    stopQuiz [] "chan" = ⟨[], .nothingRunning, none⟩ ∧
    stopQuiz (stopQuiz [("chan", ⟨0, SAMPLE_BANK, true, false, []⟩)] "chan").store "chan" =
      ⟨(stopQuiz [("chan", ⟨0, SAMPLE_BANK, true, false, []⟩)] "chan").store,
        .nothingRunning, none⟩ :=
  ⟨(stop_idempotent [] "chan").1 rfl,
   ((stop_idempotent [("chan", ⟨0, SAMPLE_BANK, true, false, []⟩)] "chan").2 rfl).2.2⟩

/-- Claim C10: the session `actuallyStart` inserts has `active = false`, so a
stop issued between start and the first question window reports that no
quiz is running and leaves the stored session unchanged; in general a
stored but inactive session is neither deleted nor mutated by stop. -/
theorem stop_inactive_session (store : List (String × Session)) (ch : String)
    (shuffled : List Question) (dc : Option Int) (s : Session) :
    ((initialSession (actuallyStartSelect shuffled dc)).active = false) ∧
    (shuffled.isEmpty = false → amGet? store ch = none →
      amGet? (actuallyStart store ch shuffled dc).1 ch
          = some (initialSession (actuallyStartSelect shuffled dc)) ∧
      stopQuiz (actuallyStart store ch shuffled dc).1 ch =
        ⟨(actuallyStart store ch shuffled dc).1, .nothingRunning, none⟩) ∧
    (amGet? store ch = some s → s.active = false →
      stopQuiz store ch = ⟨store, .nothingRunning, none⟩) := by
  refine ⟨rfl, ?_, ?_⟩
  · intro hne hnone
    have hstart : (actuallyStart store ch shuffled dc).1
        = amSet store ch (initialSession (actuallyStartSelect shuffled dc)) := by
      simp [actuallyStart, hne, hnone]
    rw [hstart]
    have hget := amGet?_amSet_self store ch (initialSession (actuallyStartSelect shuffled dc))
    refine ⟨hget, ?_⟩
    simp only [stopQuiz, hget]
    simp [initialSession]
  · intro h1 h2
    simp [stopQuiz, h1, h2]

theorem stop_inactive_session_witness :
    amGet? (actuallyStart [] "chan" SAMPLE_BANK none).1 "chan"
        = some (initialSession (actuallyStartSelect SAMPLE_BANK none)) ∧
    stopQuiz (actuallyStart [] "chan" SAMPLE_BANK none).1 "chan" =
      ⟨(actuallyStart [] "chan" SAMPLE_BANK none).1, .nothingRunning, none⟩ :=
  (stop_inactive_session [] "chan" SAMPLE_BANK none
    ⟨0, [], false, false, []⟩).2.1 rfl rfl

/-- A collect event on an already-answered question replies already-advanced
and leaves the session untouched (src line 271). -/
theorem handleCollect_answered (s : Session) (u : String) (c : Int)
    (h : s.answered = true) : handleCollect s u c = (s, .alreadyAdvanced) := by
  simp [handleCollect, h]

/-- Once `answered` is set, a whole stream of further responses produces only
already-advanced outcomes and never changes the session. -/
theorem processResponses_answered (s : Session) (rs : List (String × Int))
    (h : s.answered = true) :
    processResponses s rs = (s, rs.map (fun _ => CollectOutcome.alreadyAdvanced)) := by
  induction rs with
  | nil => simp [processResponses]
  | cons r rest ih =>
    obtain ⟨u, c⟩ := r
    simp [processResponses, handleCollect_answered s u c h, ih]

/-- Claim C1: in a collection window, the first response decides everything:
processing a response list from an unanswered state yields the state of the
first response alone, every later response gets the already-advanced
outcome, the question index is untouched, and the first responder gains
exactly one point iff the chosen index is in the question's correct set
(other users' scores never change). -/
theorem first_response_wins (s : Session) (u : String) (c : Int)
    (rs : List (String × Int)) (h : s.answered = false) :
    (processResponses s ((u, c) :: rs)).1 = (handleCollect s u c).1 ∧
    (processResponses s ((u, c) :: rs)).2
        = (handleCollect s u c).2 :: rs.map (fun _ => CollectOutcome.alreadyAdvanced) ∧
    (handleCollect s u c).1.index = s.index ∧
    (handleCollect s u c).1.answered = true ∧
    ((s.bank.getD s.index defaultQuestion).answerIdx.contains c = true →
      (handleCollect s u c).2 = .answered true ∧
      scoreGet (handleCollect s u c).1.scoreboard u = scoreGet s.scoreboard u + 1 ∧
      ∀ v, v ≠ u → scoreGet (handleCollect s u c).1.scoreboard v = scoreGet s.scoreboard v) ∧
    ((s.bank.getD s.index defaultQuestion).answerIdx.contains c = false →
      (handleCollect s u c).2 = .answered false ∧
      (handleCollect s u c).1.scoreboard = s.scoreboard) := by
  have hans : (handleCollect s u c).1.answered = true := by
    simp [handleCollect, h]
  have hrest := processResponses_answered (handleCollect s u c).1 rs hans
  refine ⟨?_, ?_, ?_, hans, ?_, ?_⟩
  · simp [processResponses, hrest]
  · simp [processResponses, hrest]
  · simp [handleCollect, h]
  · intro hc
    have hc' : c ∈ (s.bank.getD s.index defaultQuestion).answerIdx := by
      simpa using hc
    simp only [List.getD, List.get?_eq_getElem?] at hc'
    refine ⟨by simp [handleCollect, h, hc'], ?_, ?_⟩
    · simp [handleCollect, h, hc', scoreGet_amSet_self]
    · intro v hv
      simp [handleCollect, h, hc', scoreGet_amSet_ne _ _ _ _ hv]
  · intro hc
    have hc' : c ∉ (s.bank.getD s.index defaultQuestion).answerIdx := by
      simpa using hc
    simp only [List.getD, List.get?_eq_getElem?] at hc'
    constructor <;> simp [handleCollect, h, hc']

theorem first_response_wins_witness :
    (processResponses ⟨0, SAMPLE_BANK, true, false, []⟩ [("alice", 0), ("bob", 1)]).2
        = (handleCollect ⟨0, SAMPLE_BANK, true, false, []⟩ "alice" 0).2 ::
            [("bob", (1 : Int))].map (fun _ => CollectOutcome.alreadyAdvanced) ∧
    scoreGet (handleCollect ⟨0, SAMPLE_BANK, true, false, []⟩ "alice" 0).1.scoreboard "alice"
        = scoreGet (⟨0, SAMPLE_BANK, true, false, []⟩ : Session).scoreboard "alice" + 1 :=
  ⟨(first_response_wins ⟨0, SAMPLE_BANK, true, false, []⟩ "alice" 0 [("bob", 1)] rfl).2.1,
   ((first_response_wins ⟨0, SAMPLE_BANK, true, false, []⟩ "alice" 0 [("bob", 1)] rfl).2.2.2.2.1
      (by decide)).2.1⟩

/-- Inserting an entry into a score-ordered list places it after all
strictly higher scores and before equal ones, so filtering by any score
value commutes with the insertion up to the inserted element. -/
theorem filter_orderedInsert (v : Nat) (x : String × Nat) (l : List (String × Nat)) :
    (List.orderedInsert scoreOrder x l).filter (fun p => p.2 == v)
      = (if x.2 = v then x :: l.filter (fun p => p.2 == v)
         else l.filter (fun p => p.2 == v)) := by
  induction l with
  | nil =>
    by_cases h : x.2 = v <;> simp [List.orderedInsert, List.filter_cons, h]
  | cons y ys ih =>
    simp only [List.orderedInsert]
    by_cases hr : scoreOrder x y
    · rw [if_pos hr]
      by_cases h : x.2 = v <;> by_cases hy : y.2 = v <;>
        simp [List.filter_cons, h, hy]
    · rw [if_neg hr]
      have hxy : y.2 > x.2 := by
        simp only [scoreOrder, not_le] at hr
        exact hr
      by_cases h : x.2 = v
      · have hy : y.2 ≠ v := by omega
        simp [List.filter_cons, hy, ih, h]
      · by_cases hy : y.2 = v <;> simp [List.filter_cons, hy, ih, h]

/-- Stability of the scoreboard sort: entries of any fixed score appear in
the sorted output exactly in their original (insertion) order. -/
theorem filter_sortScores (v : Nat) (sb : List (String × Nat)) :
    (sortScores sb).filter (fun p => p.2 == v) = sb.filter (fun p => p.2 == v) := by
  induction sb with
  | nil => rfl
  | cons x l ih =>
    simp only [sortScores, List.insertionSort] at ih ⊢
    rw [filter_orderedInsert]
    by_cases h : x.2 = v <;> simp [List.filter_cons, h, ih]

/-- Claim C9: the scoreboard renders entries sorted by score descending with
ties in insertion order (a stable sort, stated via sortedness, the
per-score filter identity and permutation), as a 1-indexed ranked list;
the example scores A=3, B=5, C=5 render as B, C, A, and an empty
scoreboard renders the fixed no-scores message. -/
theorem scoreboard_ordering (sb : List (String × Nat)) (v : Nat) :
    List.Sorted scoreOrder (sortScores sb) ∧
    (sortScores sb).filter (fun p => p.2 == v) = sb.filter (fun p => p.2 == v) ∧
    (sortScores sb).Perm sb ∧
    showScoreboard [("A", 3), ("B", 5), ("C", 5)]
        = .ranked [(1, "B", 5), (2, "C", 5), (3, "A", 3)] ∧
    showScoreboard [] = .noScores :=
  ⟨List.sorted_insertionSort scoreOrder sb, filter_sortScores v sb,
   List.perm_insertionSort scoreOrder sb, rfl, rfl⟩

/-- Claim C6: when the first case-insensitive matches of "yes" and "maybe"
among the options sit at positions 0 and 2, the answer cells "A;C", "1;3"
and "Yes;Maybe" all decode to the same correct-index list [0, 2]: letters
map to alphabet indices, digits to value minus one, and the text-matching
fallback runs only when letter/number decoding yields nothing on a
non-empty cell. -/
theorem answer_decoding_equiv (options : List String)
    (h0 : options.findIdx? (fun o => toLowerStr o == "yes") = some 0)
    (h2 : options.findIdx? (fun o => toLowerStr o == "maybe") = some 2) :
    decodeAnswer "A;C" options = [0, 2] ∧
    decodeAnswer "1;3" options = [0, 2] ∧
    decodeAnswer "Yes;Maybe" options = [0, 2] := by
  have hlen : 2 < options.length := findIdx?_lt_length _ _ _ h2
  have l2 : (2 : Int) < (options.length : Int) := by exact_mod_cast hlen
  have l0 : (0 : Int) < (options.length : Int) := by omega
  have hfilter : (([0, 2] : List Int).filter (· < (options.length : Int))) = [0, 2] := by
    simp [List.filter_cons, l0, l2]
  constructor
  · have hA : lettersToIdxArray "A;C" = [0, 2] := rfl
    simp [decodeAnswer, hA, hfilter]
  constructor
  · have hN : lettersToIdxArray "1;3" = [0, 2] := rfl
    simp [decodeAnswer, hN, hfilter]
  · have hY : lettersToIdxArray "Yes;Maybe" = [] := rfl
    have htok : List.filter (fun x => decide (x ≠ ""))
        (List.map (fun t => toLowerStr (jsTrim (String.mk t)))
          (splitOnChar ';' (replChar '|' ';' (replChar ',' ';' ("Yes;Maybe" : String).data)) []))
        = ["yes", "maybe"] := rfl
    have hcond : True ∧ ("Yes;Maybe" : String) ≠ "" := ⟨trivial, by decide⟩
    simp only [decodeAnswer, hY, List.filter_nil]
    rw [if_pos hcond]
    simp only [textFallback]
    rw [htok]
    simp only [List.filterMap_cons, List.filterMap_nil, h0, h2]
    rfl

theorem answer_decoding_equiv_witness :
    decodeAnswer "A;C" ["Yes", "No", "Maybe"] = [0, 2] ∧
    decodeAnswer "1;3" ["Yes", "No", "Maybe"] = [0, 2] ∧
    decodeAnswer "Yes;Maybe" ["Yes", "No", "Maybe"] = [0, 2] :=
  answer_decoding_equiv ["Yes", "No", "Maybe"] rfl rfl

/-- Claim C5: whenever the header row lacks a prompt column, an answer
column or any options source, `parseCsvSmart` fails with an error naming
the detected headers, no items are produced, and the import flow leaves
the bank map untouched. -/
theorem parse_header_failure (text : String) (bankMap : List (String × List Question))
    (name : String) (hne : csvLines text ≠ [])
    (hbad : headerRolesOk (csvHeaders text) = false) :
    parseCsvSmart text = .error (headerErrorMsg (csvHeaders text)) ∧
    headerErrorMsg (csvHeaders text)
        = "Headers must include at least: question, options (or a|b|c...), answer. Detected: "
            ++ joinSep " | " (csvHeaders text) ∧
    importCsv bankMap name text = (bankMap, false) := by
  cases hl : csvLines text with
  | nil => exact absurd hl hne
  | cons headerLine dataLines =>
    have hheaders : csvHeaders text = headerCells headerLine := by
      simp [csvHeaders, hl]
    rw [hheaders] at hbad
    have hp : parseCsvSmart text = .error (headerErrorMsg (headerCells headerLine)) := by
      simp [parseCsvSmart, hl, hbad]
    refine ⟨by rw [hheaders, hp], rfl, ?_⟩
    simp [importCsv, hp]

theorem parse_header_failure_witness :
    parseCsvSmart "foo,bar\nx,y" = .error (headerErrorMsg (csvHeaders "foo,bar\nx,y")) ∧
    importCsv [] "bank" "foo,bar\nx,y" = ([], false) :=
  ⟨(parse_header_failure "foo,bar\nx,y" [] "bank" (by decide) rfl).1,
   (parse_header_failure "foo,bar\nx,y" [] "bank" (by decide) rfl).2.2⟩

/- comparator-sort permutation lemmas for the shuffle model -/

/-- One comparator-driven insertion produces a permutation of the element
consed onto the list, whatever the comparator outcomes. -/
theorem comparatorInsert_perm {α : Type} (flips : List Bool) (x : α) (l : List α) :
    (comparatorInsert flips x l).1.Perm (x :: l) := by
  induction flips generalizing l with
  | nil => cases l <;> simp [comparatorInsert]
  | cons f fl ih =>
    cases l with
    | nil => simp [comparatorInsert]
    | cons y ys =>
      simp only [comparatorInsert]
      by_cases hf : f
      · simp [hf]
      · simp only [hf, Bool.false_eq_true, if_false]
        exact ((ih ys).cons y).trans (List.Perm.swap x y ys)

/-- The comparator-driven sort always outputs a permutation of its input. -/
theorem comparatorSort_perm {α : Type} (flips : List Bool) (l : List α) :
    (comparatorSort flips l).1.Perm l := by
  induction l generalizing flips with
  | nil => simp [comparatorSort]
  | cons x xs ih =>
    simp only [comparatorSort]
    exact (comparatorInsert_perm _ x _).trans ((ih flips).cons x)

/-- Claim C3 counterexample: modelling each `Math.random() - 0.5` comparator
outcome as a fair coin, the three-element bank's first element ends at
position 0 in 4 of the 8 outcome sequences while the second element does in
only 2 - elements are not equally likely at every position. -/
theorem shuffle_uniformity_cex :
    shufflePosCount 0 0 = 4 ∧ shufflePosCount 1 0 = 2 ∧ shufflePosCount 2 0 = 2 ∧
    shufflePosCount 0 0 ≠ shufflePosCount 1 0 := by
  refine ⟨rfl, rfl, rfl, by decide⟩

/-- Claim C3 amended: the start shuffle (`sort` with a random comparator)
always produces a permutation of the bank, but the permutation is biased,
and no shuffle driven by finitely many fair binary comparator outcomes can
put every element of a 3-element bank at every position with probability
exactly one third (3 never divides a power of 2). -/
theorem shuffle_perm_not_uniform :
    (∀ (α : Type) (flips : List Bool) (l : List α), (mathRandomShuffle flips l).Perm l) ∧
    (shufflePosCount 0 0 = 4 ∧ shufflePosCount 1 0 = 2) ∧
    (∀ (g : List Bool → List Nat) (k : Nat), 3 * posCountOf g k 0 0 ≠ 2 ^ k) := by
  refine ⟨fun α flips l => comparatorSort_perm flips l, ⟨rfl, rfl⟩, ?_⟩
  intro g k heq
  have h3 : (3 : Nat) ∣ 2 ^ k := ⟨posCountOf g k 0 0, heq.symm⟩
  have := Nat.Prime.dvd_of_dvd_pow Nat.prime_three h3
  omega

theorem shuffle_perm_not_uniform_witness :
    (mathRandomShuffle [true, false] [10, 20, 30]).Perm [10, 20, 30] ∧
    3 * posCountOf (fun _ => [0, 1, 2]) 2 0 0 ≠ 2 ^ 2 :=
  ⟨shuffle_perm_not_uniform.1 Nat [true, false] [10, 20, 30],
   shuffle_perm_not_uniform.2.2 (fun _ => [0, 1, 2]) 2⟩
